import Mathlib

/-! Verification of the caching-strategies coordination layer.

Shallow embedding of the repository's caching-pattern code: the distributed
lock (`week-2 locking/locks.py`), tag-based invalidation
(`week-2 invalidation/cache.py`), the error-swallowing cache adapter
(`week-2 db-caching/cache.py`), the fixed-window rate limiter
(`week-1 rate-limiter/main.py`), negative caching
(`week-4 cache-penetration/main.py`), TTL jitter
(`week-4 cache-avalanche/main.py`) and the single-flight thundering-herd
guard (`week-4 thundering-herd/main.py`).

The Redis keyspace is modelled as a function from keys to optional values;
each Redis command used by the code is individually atomic, so it becomes a
single Lean function on that state.  Randomness (`uuid.uuid4`,
`random.randint`) and wall-clock time become explicit parameters.
-/

set_option maxHeartbeats 1000000

namespace CachingStrategies

/-! ## Shared store model -/

/-- The string keyspace of the coordination store: key to optional value. -/
def Store := String → Option String

/-- Embedding of `SET key value` (unconditional). -/
def Store.setKey (st : Store) (k v : String) : Store :=
  fun x => if x = k then some v else st x

/-- Embedding of `DEL key`. -/
def Store.delKey (st : Store) (k : String) : Store :=
  fun x => if x = k then none else st x

/-! ## Distributed lock — `week-2-redis-patterns/hands-on/locking/locks.py`

`RedisLock` keeps the token of the caller's last acquisition attempt in
`self.lock_id`; `acquire` is `SET key token NX EX=timeout` and `release` is
the Lua script
`if redis.call("get", KEYS[1]) == ARGV[1] then return redis.call("del", KEYS[1]) else return 0 end`,
which Redis executes as one atomic server-side step, so it is embedded as a
single transition on the store. -/

/-- Embedding of `RedisLock`: the instance state is the token generated by the last
`acquire` call (`self.lock_id`, `None` before any acquisition). -/
structure RedisLock where
  lock_id : Option String

/-- Embedding of `RedisLock.acquire`: generates a fresh token (`uuid.uuid4()`, passed in
as `token`), stores it in `self.lock_id`, and issues
`SET key token NX EX=timeout`.  Returns the new instance state, the new
store, and the boolean result.  The TTL is tracked by the store itself and
does not affect the value semantics modelled here. -/
def RedisLock.acquire (token : String) (st : Store) (key : String) :
    RedisLock × Store × Bool :=
  match st key with
  | some _ => (⟨some token⟩, st, false)
  | none => (⟨some token⟩, st.setKey key token, true)

/-- Embedding of `RedisLock.release`: if `self.lock_id` is unset, return `False`;
otherwise run the atomic Lua check-and-delete: delete `key` and return
`True` exactly when the stored value equals `self.lock_id`, else leave the
store untouched and return `False`.  The whole body is one store
transition, mirroring the single server-side script. -/
def RedisLock.release (l : RedisLock) (st : Store) (key : String) :
    Store × Bool :=
  match l.lock_id with
  | none => (st, false)
  | some t =>
      if st key = some t then (st.delKey key, true) else (st, false)

/-! ## Tag invalidation — `week-2-redis-patterns/hands-on/invalidation/cache.py`

`CacheManager` uses two kinds of Redis entries: plain string entries
(`SETEX key ttl value`) and tag sets (`SADD "tag:"++tag key`).  They are
modelled as two maps; an expired or missing tag set reads as the empty
member list (`SMEMBERS` of a missing key is empty). -/

/-- The `CacheManager` view of the keyspace: string entries with their TTL,
plus set entries (tag sets) as member lists.  A missing set is `[]`. -/
structure TagStore where
  strs : String → Option (String × Nat)
  sets : String → List String

/-- The Redis key of a tag's member set (`f"tag:{tag}"`). -/
def tagKey (tag : String) : String := "tag:" ++ tag

/-- One `SADD tag:t key` step followed by `EXPIRE tag:t (ttl+60)` as done in
`set_with_tags`; the member is appended if not already present.  TTL updates
on sets are not tracked beyond existence. -/
def TagStore.sadd (st : TagStore) (sk member : String) : TagStore :=
  { st with
    sets := fun x =>
      if x = sk then
        if member ∈ st.sets sk then st.sets sk else member :: st.sets sk
      else st.sets x }

/-- Embedding of `CacheManager.set_with_tags(key, value, tags, ttl)`: `SETEX` the value,
then for each tag add `key` to the tag's member set. -/
def set_with_tags (st : TagStore) (key value : String) (tags : List String)
    (ttl : Nat) : TagStore :=
  let st1 : TagStore :=
    { st with strs := fun x => if x = key then some (value, ttl) else st.strs x }
  tags.foldl (fun acc tag => acc.sadd (tagKey tag) key) st1

/-- Delete a list of string keys (`self.client.delete(*keys)`). -/
def TagStore.delAll (st : TagStore) (keys : List String) : TagStore :=
  keys.foldl
    (fun acc k => { acc with strs := fun x => if x = k then none else acc.strs x })
    st

/-- Embedding of `CacheManager.invalidate_by_tag(tag)`: read the tag's member set; if it
is non-empty, delete every member key and then the tag set itself, reporting
the number of member entries removed (`len(keys)`); if the member set is
empty (missing or expired), do nothing.  Returns the new store and the
reported count. -/
def invalidate_by_tag (st : TagStore) (tag : String) : TagStore × Nat :=
  let keys := st.sets (tagKey tag)
  if keys = [] then (st, 0)
  else
    let st1 := st.delAll keys
    let st2 : TagStore :=
      { st1 with sets := fun x => if x = tagKey tag then [] else st1.sets x }
    (st2, keys.length)

/-! ## Error-swallowing cache adapter — `week-2-redis-patterns/hands-on/db-caching/cache.py`

Every method of `RedisCache` wraps its Redis client call in
`try: ... except Exception as e: print(...)`.  The client call's outcome is
a parameter (`ClientRes`); the embedded method returns
`Except String _` so that a propagated Python exception would show up as
`.error` — the theorems show it never does. -/

/-- Outcome of a raw Redis client call: a value, or a raised exception. -/
inductive ClientRes (α : Type) where
  | ok (a : α)
  | err (e : String)

/-- String entries with TTL, as written by `SETEX`. -/
def CStore := String → Option (String × Nat)

/-- Embedding of `RedisCache.get(key)`: `value = self.client.get(key)`; if the client
raised, the handler prints and returns `None` (a miss); otherwise a present
value is returned and an absent one is `None`.  (`json.loads` is modelled
as the identity on the stored payload.) -/
def cache_get (resp : ClientRes (Option String)) : Except String (Option String) :=
  match resp with
  | .ok (some v) => .ok (some v)
  | .ok none => .ok none
  | .err _ => .ok none

/-- Embedding of `RedisCache.set(key, value, ttl)`: `self.client.setex(key, ttl, value)`;
on a client exception the handler prints and falls through, leaving the
store unchanged.  `clientErr` is the exception raised by the client call,
if any. -/
def cache_set (st : CStore) (key value : String) (ttl : Nat)
    (clientErr : Option String) : Except String CStore :=
  match clientErr with
  | some _ => .ok st
  | none => .ok (fun x => if x = key then some (value, ttl) else st x)

/-- Embedding of `RedisCache.delete(key)`: `self.client.delete(key)`; on a client
exception the handler prints and falls through. -/
def cache_delete (st : CStore) (key : String)
    (clientErr : Option String) : Except String CStore :=
  match clientErr with
  | some _ => .ok st
  | none => .ok (fun x => if x = key then none else st x)

/-! ## TTL jitter — `week-4-production-patterns/hands-on/cache-avalanche/main.py`

`BASE_TTL = 10`; both `warm_cache_with_jitter` and
`get_product_with_jitter` compute `jitter = random.randint(-3, 3)` and
`ttl = BASE_TTL + jitter`.  The random draw becomes an explicit parameter
constrained to `[-3, 3]`. -/

/-- Embedding of `BASE_TTL = 10` (seconds). -/
def BASE_TTL : Int := 10

/-- TTL computed by `warm_cache_with_jitter` for one entry, given the drawn
jitter: `ttl = BASE_TTL + jitter`. -/
def warmJitterTtl (jitter : Int) : Int := BASE_TTL + jitter

/-- TTL computed by `get_product_with_jitter` on re-fetch after a miss,
given the drawn jitter: `ttl = BASE_TTL + jitter`. -/
def refetchJitterTtl (jitter : Int) : Int := BASE_TTL + jitter

/-- Embedding of `warm_cache_with_jitter(count)`: the list of TTLs assigned to the warmed
entries, one per drawn jitter (the `ttls` list the endpoint accumulates). -/
def warm_cache_with_jitter (jitters : List Int) : List Int :=
  jitters.map warmJitterTtl

/-! ## Fixed-window rate limiter — `week-1-redis-fundamentals/hands-on/mini-projects/rate-limiter/main.py`

`check_rate_limit(user_id)` derives the window key from the user id and the
current wall-clock minute (`now.strftime("%Y-%m-%d-%H-%M")`), runs
`INCR key`, and when the post-increment count is 1 runs
`EXPIRE key WINDOW_SECONDS`.  Wall-clock time is modelled as absolute
seconds `t : Nat`; the minute string becomes `t / 60` and `now.second`
becomes `t % 60`.  The module constants `RATE_LIMIT = 5` and
`WINDOW_SECONDS = 60` become the parameters `limit` and `window`
(global constants turned into explicit arguments).  `EXPIRE` calls are
recorded in a log so that the expiry-setting discipline is observable. -/

/-- Embedding of `RATE_LIMIT = 5`. -/
def RATE_LIMIT : Nat := 5

/-- Embedding of `WINDOW_SECONDS = 60`. -/
def WINDOW_SECONDS : Nat := 60

/-- Redis state seen by the rate limiter: for each `(user, minute)` window
key, the counter (`INCR` on a missing key yields 1, so a missing counter
reads as 0), plus the chronological log of `EXPIRE key seconds` calls. -/
structure RLState where
  counts : String × Nat → Nat
  ttlLog : List ((String × Nat) × Nat)

/-- The fresh keyspace: no counters, no `EXPIRE` calls. -/
def rlInit : RLState := ⟨fun _ => 0, []⟩

/-- The dict returned by `check_rate_limit`. -/
structure RLResult where
  allowed : Bool
  limit : Nat
  remaining : Int
  current : Nat
  retry_after : Nat
deriving DecidableEq

/-- Embedding of `check_rate_limit(user_id)` at wall-clock second `t`:
`key = (user, t / 60)`; `current = INCR key`; if `current == 1` then
`EXPIRE key window`; `allowed = current <= limit`;
`remaining = max(0, limit - current)`; `retry_after = 60 - now.second`. -/
def check_rate_limit (limit window : Nat) (st : RLState) (user : String)
    (t : Nat) : RLState × RLResult :=
  let key := (user, t / 60)
  let current := st.counts key + 1
  let counts2 := fun x => if x = key then current else st.counts x
  let log2 := if current = 1 then st.ttlLog ++ [(key, window)] else st.ttlLog
  (⟨counts2, log2⟩,
   { allowed := decide (current ≤ limit)
     limit := limit
     remaining := max 0 ((limit : Int) - (current : Int))
     current := current
     retry_after := 60 - t % 60 })

/-- A sequence of `check_rate_limit` calls by one user at the given times,
threading the store; returns the final store and the list of results. -/
def runChecks (limit window : Nat) (user : String) :
    RLState → List Nat → RLState × List RLResult
  | st, [] => (st, [])
  | st, t :: ts =>
      let p := check_rate_limit limit window st user t
      let q := runChecks limit window user p.1 ts
      (q.1, p.2 :: q.2)

/-! ## Negative caching — `week-4-production-patterns/hands-on/cache-penetration/main.py`

`get_user_safe(user_id)`: check the cache; a cached `"NULL"` is a negative
hit, any other cached payload a positive hit; on a miss query the database
(`VALID_IDS = set(range(1, 101))`), then `SET ... ex=300` for a found user
or `SET key "NULL" ex=60` for a missing one.  Entries are stored with their
absolute expiry instant and a read at time `t` sees an entry only while
`t < expiry`. -/

/-- Positive-entry TTL: the literal `ex=300` in `get_user_safe`. -/
def POSITIVE_TTL : Nat := 300

/-- Negative-entry TTL: the literal `ex=60` in `get_user_safe`. -/
def NEGATIVE_TTL : Nat := 60

/-- Embedding of `user_id in VALID_IDS` where `VALID_IDS = set(range(1, 101))`. -/
def validId (id : Int) : Bool := 1 ≤ id && id ≤ 100

/-- Embedding of `json.dumps` of the user dict built by `query_database`. -/
def serializeUser (id : Int) : String :=
  "\x7b\"id\": " ++ toString id ++ ", \"name\": \"User " ++ toString id ++
    "\", \"email\": \"user" ++ toString id ++ "@example.com\"\x7d"

/-- Embedding of `query_database(user_id)`: the serialized user for a valid id, `None`
otherwise.  (The `stats["db_queries"] += 1` side effect is threaded
explicitly by the caller below.) -/
def query_database (id : Int) : Option String :=
  if validId id then some (serializeUser id) else none

/-- Cache state for the penetration demo: per user id, the cached payload
and its absolute expiry instant. -/
def PenStore := Int → Option (String × Nat)

/-- Embedding of `redis_client.get` at absolute time `t`: an entry is visible while
`t < expiry`. -/
def penGet (st : PenStore) (t : Nat) (id : Int) : Option String :=
  match st id with
  | some (v, e) => if t < e then some v else none
  | none => none

/-- Where a `get_user_safe` response came from. -/
inductive PenSource where
  | cache
  | negative_cache
  | database
deriving DecidableEq

/-- The response of `get_user_safe`: its `source` tag and its `data` field. -/
structure PenResp where
  source : PenSource
  data : Option String
deriving DecidableEq

/-- Embedding of `get_user_safe(user_id)` at time `t` with `q` database queries so far:
cached `"NULL"` is a negative-cache hit; any other cached value a positive
hit; otherwise query the database and cache the result — positive with
`ex=300`, negative as `"NULL"` with `ex=60`. -/
def get_user_safe (st : PenStore) (q : Nat) (t : Nat) (id : Int) :
    PenStore × Nat × PenResp :=
  match penGet st t id with
  | some v =>
      if v = "NULL" then (st, q, ⟨.negative_cache, none⟩)
      else (st, q, ⟨.cache, some v⟩)
  | none =>
      match query_database id with
      | some u =>
          (fun x => if x = id then some (u, t + POSITIVE_TTL) else st x,
           q + 1, ⟨.database, some u⟩)
      | none =>
          (fun x => if x = id then some ("NULL", t + NEGATIVE_TTL) else st x,
           q + 1, ⟨.database, none⟩)

/-- Repeated `get_user_safe` lookups of one id at the given times, threading
the cache and the query counter. -/
def runLookups (id : Int) : PenStore → Nat → List Nat →
    PenStore × Nat × List PenResp
  | st, q, [] => (st, q, [])
  | st, q, t :: ts =>
      let p := get_user_safe st q t id
      let r := runLookups id p.1 p.2.1 ts
      (r.1, r.2.1, p.2.2 :: r.2.2)

/-! ## Single-flight guard, one caller — `week-4-production-patterns/hands-on/thundering-herd/main.py`

`get_product_safe()` as seen by one caller: check the cache; on a miss try
`SET lock_key "1" NX EX=5`; the winner queries the database, caches the
result with `ex=10` and deletes the lock; a loser polls the cache up to 30
times (`time.sleep(0.1)` then `GET`), returning as soon as it is populated,
and after 30 failed polls queries the database directly and returns without
touching the store.  Concurrent writers are abstracted as `env i`, the
cache contents observed by the loser's `i`-th poll; every store operation
the caller issues is recorded in its effect trace. -/

/-- What `get_product_safe` returns: the `source` field of its response. -/
inductive SFResult where
  | fromCache (v : String)
  | fromDb (v : String)
deriving DecidableEq

/-- A store operation issued by `get_product_safe` (cache polls inside the
wait loop are elided; `lockTry won` is the `SET ... NX` attempt and its
outcome). -/
inductive SFEff where
  | cacheRead
  | lockTry (won : Bool)
  | dbQuery
  | cacheWrite (v : String)
  | lockDelete
deriving DecidableEq

/-- The loser's wait loop: up to `n` more polls, the next one being poll
number `i`; returns the first populated value together with the index of
the poll that saw it. -/
def pollWait (env : Nat → Option String) : Nat → Nat → Option (String × Nat)
  | 0, _ => none
  | n + 1, i =>
      match env i with
      | some v => some (v, i)
      | none => pollWait env n (i + 1)

/-- Embedding of `get_product_safe()` for one caller: `cached` is its initial cache read,
`lockFree` whether the `SET ... NX` attempt finds the lock key absent,
`env` the cache contents seen by each poll of the wait loop, and `dbVal`
the payload `expensive_db_query()` would return.  Produces the response and
the trace of store operations issued. -/
def get_product_safe (cached : Option String) (lockFree : Bool)
    (env : Nat → Option String) (dbVal : String) : SFResult × List SFEff :=
  match cached with
  | some v => (.fromCache v, [.cacheRead])
  | none =>
      if lockFree then
        (.fromDb dbVal,
         [.cacheRead, .lockTry true, .dbQuery, .cacheWrite dbVal, .lockDelete])
      else
        match pollWait env 30 1 with
        | some p => (.fromCache p.1, [.cacheRead, .lockTry false])
        | none => (.fromDb dbVal, [.cacheRead, .lockTry false, .dbQuery])

/-- The cache/lock portion of the coordination store for the herd demo. -/
structure HerdStore where
  cache : Option String
  lockHeld : Bool
deriving DecidableEq

/-- Effect of one traced operation on the coordination store: reads and the
database query leave it untouched; a failed `SET ... NX` also leaves it
untouched. -/
def applyEff (s : HerdStore) : SFEff → HerdStore
  | .cacheRead => s
  | .lockTry won => if won then { s with lockHeld := true } else s
  | .dbQuery => s
  | .cacheWrite v => { s with cache := some v }
  | .lockDelete => { s with lockHeld := false }

/-- Replay a trace of store operations. -/
def applyTrace (s : HerdStore) (effs : List SFEff) : HerdStore :=
  effs.foldl applyEff s

/-! ## Single-flight guard, concurrent run — same source function

A timed interleaving model of `N` concurrent callers of
`get_product_safe()`.  Time advances in ticks of 100 ms (the loser's
`time.sleep(0.1)` granularity); each round every caller takes one step, in
caller order, against the shared store (Redis serializes the individually
atomic commands).  The cache check and the adjacent `SET ... NX` attempt of
a starting caller happen within one tick, matching their sub-millisecond
separation in the code.  `expensive_db_query()` takes `F` ticks (`F = 20`
for the 2-second sleep); a loser polls once per tick, 30 times
(`for _ in range(30)`), then falls back to a direct database query. -/

/-- The shared coordination store plus the running count of database
queries started. -/
structure Sys where
  lockHeld : Bool
  cache : Option Nat
  fetches : Nat
deriving DecidableEq

/-- One caller's control point inside `get_product_safe()`:
about to start; fetching from the database with `r` ticks left (winner);
polling the cache with `r` polls left (loser); timed-out fallback fetch
with `r` ticks left; or returned, with the value and its source. -/
inductive CState where
  | start
  | fetching (r : Nat)
  | polling (r : Nat)
  | fallback (r : Nat)
  | doneDb (v : Nat)
  | doneCache (v : Nat)
deriving DecidableEq

/-- One caller's step for one tick.  `F` is the database latency in ticks
and `v` the payload the database returns. -/
def stepCaller (F v : Nat) (s : Sys) : CState → Sys × CState
  | .start =>
      match s.cache with
      | some w => (s, .doneCache w)
      | none =>
          if s.lockHeld then (s, .polling 30)
          else ({ lockHeld := true, cache := s.cache, fetches := s.fetches + 1 },
                .fetching F)
  | .fetching 0 =>
      ({ lockHeld := false, cache := some v, fetches := s.fetches }, .doneDb v)
  | .fetching (r + 1) => (s, .fetching r)
  | .polling 0 => ({ s with fetches := s.fetches + 1 }, .fallback F)
  | .polling (r + 1) =>
      match s.cache with
      | some w => (s, .doneCache w)
      | none => (s, .polling r)
  | .fallback 0 => (s, .doneDb v)
  | .fallback (r + 1) => (s, .fallback r)
  | .doneDb w => (s, .doneDb w)
  | .doneCache w => (s, .doneCache w)

/-- One round: every caller steps once, in list order, threading the shared
store. -/
def stepRound (F v : Nat) : Sys → List CState → Sys × List CState
  | s, [] => (s, [])
  | s, c :: cs =>
      let p := stepCaller F v s c
      let q := stepRound F v p.1 cs
      (q.1, p.2 :: q.2)

/-- Run `n` rounds. -/
def runRounds (F v : Nat) : Nat → Sys × List CState → Sys × List CState
  | 0, sc => sc
  | n + 1, sc => runRounds F v n (stepRound F v sc.1 sc.2)

/-- Initial shared store: no cache entry, lock free, no queries yet. -/
def initSys : Sys := ⟨false, none, 0⟩

/-- Embedding of `N` concurrent callers, all about to enter `get_product_safe()` on a
cold cache. -/
def initConf (N : Nat) : Sys × List CState := (initSys, List.replicate N .start)

/-! ## Helper lemmas -/

theorem TagStore.delAll_sets (keys : List String) :
    ∀ st : TagStore, (st.delAll keys).sets = st.sets := by
  induction keys with
  | nil => intro st; rfl
  | cons k ks ih =>
      intro st
      show (TagStore.delAll _ ks).sets = st.sets
      rw [ih]

theorem TagStore.delAll_strs (keys : List String) :
    ∀ (st : TagStore) (k : String),
      (st.delAll keys).strs k = if k ∈ keys then none else st.strs k := by
  induction keys with
  | nil => intro st k; simp [TagStore.delAll]
  | cons a as ih =>
      intro st k
      show (TagStore.delAll _ as).strs k = _
      rw [ih]
      by_cases hk : k = a
      · subst hk; simp
      · by_cases hm : k ∈ as <;> simp [hk, hm]

/-! ## Claim theorems -/

/-- Claim C1: with token `A` stored at lock key `k`, a `release` by a caller
whose `lock_id` is `B ≠ A` deletes nothing — the store is unchanged and the
value at `k` is still `A` — and returns `false`; a `release` by the owner
(`lock_id = A`) returns `true` and deletes exactly `k`; and `release`
returns `true` only when the caller's `lock_id` equals the stored token.
The check-and-delete is the single atomic transition `RedisLock.release`
(the embedded Lua script), never a separate get followed by delete. -/
theorem release_owner_check (st : Store) (key A B : String)
    (hA : st key = some A) (hBA : B ≠ A) :
    (RedisLock.release ⟨some B⟩ st key).2 = false ∧
    (RedisLock.release ⟨some B⟩ st key).1 = st ∧
    (RedisLock.release ⟨some B⟩ st key).1 key = some A ∧
    (RedisLock.release ⟨some A⟩ st key).2 = true ∧
    (RedisLock.release ⟨some A⟩ st key).1 key = none ∧
    (∀ k, k ≠ key → (RedisLock.release ⟨some A⟩ st key).1 k = st k) ∧
    (∀ l : RedisLock, (RedisLock.release l st key).2 = true →
      l.lock_id = some A) := by
  have hB : ¬ st key = some B := by
    rw [hA]; intro h; exact hBA (Option.some.injEq _ _ ▸ h).symm
  have hab : ¬ (A = B) := fun h => hBA h.symm
  refine ⟨?_, ?_, ?_, ?_, ?_, ?_, ?_⟩
  · simp [RedisLock.release, hB]
  · simp [RedisLock.release, hB]
  · simp [RedisLock.release, hB, hA, hab]
  · simp [RedisLock.release, hA]
  · simp [RedisLock.release, hA, Store.delKey]
  · intro k hk
    simp [RedisLock.release, hA, Store.delKey, hk]
  · intro l hl
    match hid : l.lock_id with
    | none => simp [RedisLock.release, hid] at hl
    | some t =>
        by_cases ht : st key = some t
        · rw [hA] at ht; exact ht.symm
        · simp [RedisLock.release, hid, ht] at hl

/-- Claim C1 witness: concrete instance with token `"A"` held at the lock
key and a caller owning `"B"`. -/
theorem release_owner_check_witness :
    (RedisLock.release ⟨some "B"⟩
      (fun k => if k = "lock:event:1" then some "A" else none)
      "lock:event:1").2 = false :=
  (release_owner_check
    (fun k => if k = "lock:event:1" then some "A" else none)
    "lock:event:1" "A" "B" (by simp) (by decide)).1

/-- Claim C8: an adapter error during `RedisCache.get` yields a miss
(`none`) and is never propagated (`cache_get` never produces `.error`); an
adapter error during `RedisCache.set` or `RedisCache.delete` is swallowed:
the method returns normally with the store unchanged. -/
theorem cache_adapter_errors_swallowed (e : String) (st : CStore)
    (key value : String) (ttl : Nat) :
    cache_get (.err e) = .ok none ∧
    (∀ resp : ClientRes (Option String), ∃ r, cache_get resp = .ok r) ∧
    cache_set st key value ttl (some e) = .ok st ∧
    cache_delete st key (some e) = .ok st := by
  refine ⟨rfl, ?_, rfl, rfl⟩
  intro resp
  match resp with
  | .ok (some v) => exact ⟨some v, rfl⟩
  | .ok none => exact ⟨none, rfl⟩
  | .err _ => exact ⟨none, rfl⟩

/-- Claim C9: for any jitter drawn by `random.randint(-3, 3)`, the TTL
assigned by the jittered write path — both `warm_cache_with_jitter` and the
re-fetch path of `get_product_with_jitter` — equals `BASE_TTL` plus that
jitter and lies in `[7, 13]`; the jitter bound `3` is 30% of the base of
10 (`10 * 3 = 3 * BASE_TTL`). -/
theorem jitter_ttl_bounds (j : Int) (js : List Int)
    (hj1 : -3 ≤ j) (hj2 : j ≤ 3)
    (hjs : ∀ x ∈ js, -3 ≤ x ∧ x ≤ 3) :
    warmJitterTtl j = BASE_TTL + j ∧
    7 ≤ warmJitterTtl j ∧ warmJitterTtl j ≤ 13 ∧
    refetchJitterTtl j = BASE_TTL + j ∧
    7 ≤ refetchJitterTtl j ∧ refetchJitterTtl j ≤ 13 ∧
    10 * 3 = 3 * BASE_TTL ∧
    (∀ t ∈ warm_cache_with_jitter js, 7 ≤ t ∧ t ≤ 13) := by
  refine ⟨rfl, ?_, ?_, rfl, ?_, ?_, rfl, ?_⟩
  · simp only [warmJitterTtl, BASE_TTL]; omega
  · simp only [warmJitterTtl, BASE_TTL]; omega
  · simp only [refetchJitterTtl, BASE_TTL]; omega
  · simp only [refetchJitterTtl, BASE_TTL]; omega
  · intro t ht
    simp only [warm_cache_with_jitter, List.mem_map] at ht
    obtain ⟨x, hx, rfl⟩ := ht
    have := hjs x hx
    simp only [warmJitterTtl, BASE_TTL]
    omega

/-- Claim C9 witness: jitter `2` on the base of 10 gives a TTL in
`[7, 13]`. -/
theorem jitter_ttl_bounds_witness :
    7 ≤ warmJitterTtl 2 ∧ warmJitterTtl 2 ≤ 13 :=
  ⟨(jitter_ttl_bounds 2 [-3, 0, 3] (by decide) (by decide)
      (by decide)).2.1,
   (jitter_ttl_bounds 2 [-3, 0, 3] (by decide) (by decide)
      (by decide)).2.2.1⟩

/-- Claim C3: `invalidate_by_tag` reports the number of members of the
tag's set, deletes every member key and then the tag set itself (both end
up absent), is a no-op when the tag set is empty or expired (missing), and
touches nothing else. -/
theorem invalidate_by_tag_spec (st : TagStore) (tag : String) :
    (invalidate_by_tag st tag).2 = (st.sets (tagKey tag)).length ∧
    (∀ k ∈ st.sets (tagKey tag), (invalidate_by_tag st tag).1.strs k = none) ∧
    (invalidate_by_tag st tag).1.sets (tagKey tag) = [] ∧
    (st.sets (tagKey tag) = [] → (invalidate_by_tag st tag).1 = st) ∧
    (∀ k, k ∉ st.sets (tagKey tag) →
      (invalidate_by_tag st tag).1.strs k = st.strs k) ∧
    (∀ s, s ≠ tagKey tag →
      (invalidate_by_tag st tag).1.sets s = st.sets s) := by
  by_cases h : st.sets (tagKey tag) = []
  · refine ⟨?_, ?_, ?_, fun _ => ?_, fun k _ => ?_, fun s _ => ?_⟩ <;>
      simp [invalidate_by_tag, h]
  · refine ⟨?_, ?_, ?_, fun h0 => absurd h0 h, ?_, ?_⟩
    · simp [invalidate_by_tag, h]
    · intro k hk
      simp only [invalidate_by_tag, h, if_neg h]
      simp [TagStore.delAll_strs, hk]
    · simp [invalidate_by_tag, h]
    · intro k hk
      simp only [invalidate_by_tag, h, if_neg h]
      simp [TagStore.delAll_strs, hk]
    · intro s hs
      simp only [invalidate_by_tag, h, if_neg h]
      simp [TagStore.delAll_sets, hs]

/-- Claim C3 witness: two keys cached under tag `"t"`; the reported count
is the member count. -/
theorem invalidate_by_tag_spec_witness :
    (invalidate_by_tag
      ⟨fun k => if k = "k1" ∨ k = "k2" then some ("v", 300) else none,
       fun s => if s = "tag:t" then ["k1", "k2"] else []⟩ "t").2 = 2 :=
  (invalidate_by_tag_spec
    ⟨fun k => if k = "k1" ∨ k = "k2" then some ("v", 300) else none,
     fun s => if s = "tag:t" then ["k1", "k2"] else []⟩ "t").1.trans (by decide)

theorem runChecks_results (L W : Nat) (user : String) (m : Nat) :
    ∀ (ts : List Nat) (st : RLState) (c : Nat),
      (∀ t ∈ ts, t / 60 = m) → st.counts (user, m) = c →
      (runChecks L W user st ts).2 =
        (List.enumFrom c ts).map (fun p =>
          { allowed := decide (p.1 + 1 ≤ L)
            limit := L
            remaining := max 0 ((L : Int) - ((p.1 + 1 : Nat) : Int))
            current := p.1 + 1
            retry_after := 60 - p.2 % 60 }) := by
  intro ts
  induction ts with
  | nil => intro st c _ _; rfl
  | cons t ts ih =>
      intro st c hts hc
      have hm : t / 60 = m := hts t (List.mem_cons_self t ts)
      show (check_rate_limit L W st user t).2 ::
          (runChecks L W user (check_rate_limit L W st user t).1 ts).2 = _
      simp only [List.enumFrom, List.map_cons, List.cons.injEq]
      constructor
      · simp [check_rate_limit, hm, hc]
      · rw [ih (check_rate_limit L W st user t).1 (c + 1)
          (fun x hx => hts x (List.mem_cons_of_mem t hx))
          (by simp [check_rate_limit, hm, hc])]

theorem runChecks_counts_other (L W : Nat) (user : String) (m : Nat) :
    ∀ (ts : List Nat) (st : RLState) (key2 : String × Nat),
      (∀ t ∈ ts, t / 60 = m) → key2 ≠ (user, m) →
      (runChecks L W user st ts).1.counts key2 = st.counts key2 := by
  intro ts
  induction ts with
  | nil => intro st key2 _ _; rfl
  | cons t ts ih =>
      intro st key2 hts hk
      have hm : t / 60 = m := hts t (List.mem_cons_self t ts)
      show (runChecks L W user (check_rate_limit L W st user t).1 ts).1.counts
          key2 = _
      rw [ih (check_rate_limit L W st user t).1 key2
        (fun x hx => hts x (List.mem_cons_of_mem t hx)) hk]
      simp [check_rate_limit, hm, hk]

theorem runChecks_log_frozen (L W : Nat) (user : String) (m : Nat) :
    ∀ (ts : List Nat) (st : RLState),
      (∀ t ∈ ts, t / 60 = m) → 1 ≤ st.counts (user, m) →
      (runChecks L W user st ts).1.ttlLog = st.ttlLog := by
  intro ts
  induction ts with
  | nil => intro st _ _; rfl
  | cons t ts ih =>
      intro st hts hc
      have hm : t / 60 = m := hts t (List.mem_cons_self t ts)
      have hne : ¬ (st.counts (user, m) + 1 = 1) := by omega
      show (runChecks L W user (check_rate_limit L W st user t).1 ts).1.ttlLog
          = _
      rw [ih (check_rate_limit L W st user t).1
        (fun x hx => hts x (List.mem_cons_of_mem t hx))
        (by simp [check_rate_limit, hm])]
      simp [check_rate_limit, hm, hne]

theorem runChecks_current_ge (L W : Nat) (user : String) (m : Nat) :
    ∀ (ts : List Nat) (st : RLState) (c : Nat),
      (∀ t ∈ ts, t / 60 = m) → st.counts (user, m) = c →
      ∀ r ∈ (runChecks L W user st ts).2, c + 1 ≤ r.current := by
  intro ts
  induction ts with
  | nil => intro st c _ _ r hr; simp [runChecks] at hr
  | cons t ts ih =>
      intro st c hts hc r hr
      have hm : t / 60 = m := hts t (List.mem_cons_self t ts)
      rw [show (runChecks L W user st (t :: ts)).2 =
            (check_rate_limit L W st user t).2 ::
              (runChecks L W user (check_rate_limit L W st user t).1 ts).2
          from rfl] at hr
      rcases List.mem_cons.mp hr with h | h
      · subst h
        simp [check_rate_limit, hm, hc]
      · have h2 := ih (check_rate_limit L W st user t).1 (c + 1)
          (fun x hx => hts x (List.mem_cons_of_mem t hx))
          (by simp [check_rate_limit, hm, hc]) r h
        omega

/-- Claim C4: for a sequence of `check_rate_limit` calls by one actor
inside one window (all call times in minute `m`), the `i`-th call observes
post-increment count `i`, is allowed exactly when `i ≤ limit` (so the first
`L` calls pass and call `L+1` is rejected), reports
`remaining = max(0, limit - count)` and `retry_after = 60 - second`, which
is exactly the time remaining until the next minute-aligned window
boundary; and a call in a different (fresh) window observes count 1 and is
allowed. -/
theorem rate_limiter_fixed_window (L W : Nat) (user : String) (m : Nat)
    (ts : List Nat) (hL : 1 ≤ L) (hts : ∀ t ∈ ts, t / 60 = m) :
    (runChecks L W user rlInit ts).2 =
      (List.enumFrom 0 ts).map (fun p =>
        { allowed := decide (p.1 + 1 ≤ L)
          limit := L
          remaining := max 0 ((L : Int) - ((p.1 + 1 : Nat) : Int))
          current := p.1 + 1
          retry_after := 60 - p.2 % 60 }) ∧
    (∀ t : Nat, 60 - t % 60 = (t / 60 + 1) * 60 - t) ∧
    (∀ t2, t2 / 60 ≠ m →
      (check_rate_limit L W (runChecks L W user rlInit ts).1 user t2).2.current
          = 1 ∧
      (check_rate_limit L W (runChecks L W user rlInit ts).1 user t2).2.allowed
          = true) := by
  refine ⟨runChecks_results L W user m ts rlInit 0 hts rfl, ?_, ?_⟩
  · intro t; omega
  · intro t2 ht2
    have hfresh : (runChecks L W user rlInit ts).1.counts (user, t2 / 60) = 0 := by
      rw [runChecks_counts_other L W user m ts rlInit (user, t2 / 60) hts]
      · rfl
      · intro h
        exact ht2 (congrArg Prod.snd h)
    constructor
    · simp [check_rate_limit, hfresh]
    · simp [check_rate_limit, hfresh, hL]

/-- Claim C4 witness: six calls in minute 0 with the default limit 5 and
window 60, then a call in minute 1. -/
theorem rate_limiter_fixed_window_witness :
    (check_rate_limit RATE_LIMIT WINDOW_SECONDS
      (runChecks RATE_LIMIT WINDOW_SECONDS "u" rlInit [1, 2, 3, 4, 5, 6]).1
      "u" 61).2.current = 1 :=
  ((rate_limiter_fixed_window RATE_LIMIT WINDOW_SECONDS "u" 0
      [1, 2, 3, 4, 5, 6] (by decide) (by decide)).2.2 61 (by decide)).1

/-- Claim C5: within one window the `EXPIRE` on the window key is issued
exactly once, to the window width, and only by the call whose
post-increment count is 1: after the first call the expiry log is
`[(key, W)]`, the later calls (which all observe counts at least 2) leave
the log unchanged. -/
theorem rate_limiter_expiry_once (L W : Nat) (user : String) (m t0 : Nat)
    (rest : List Nat) (h0 : t0 / 60 = m) (hrest : ∀ t ∈ rest, t / 60 = m) :
    (check_rate_limit L W rlInit user t0).2.current = 1 ∧
    (check_rate_limit L W rlInit user t0).1.ttlLog = [((user, m), W)] ∧
    (runChecks L W user (check_rate_limit L W rlInit user t0).1 rest).1.ttlLog
      = [((user, m), W)] ∧
    (∀ r ∈ (runChecks L W user (check_rate_limit L W rlInit user t0).1 rest).2,
      2 ≤ r.current) := by
  have hc1 : (check_rate_limit L W rlInit user t0).1.counts (user, m) = 1 := by
    simp [check_rate_limit, h0, rlInit]
  refine ⟨?_, ?_, ?_, ?_⟩
  · simp [check_rate_limit, rlInit]
  · simp [check_rate_limit, h0, rlInit]
  · rw [runChecks_log_frozen L W user m rest _ hrest (by omega)]
    simp [check_rate_limit, h0, rlInit]
  · exact runChecks_current_ge L W user m rest _ 1 hrest hc1

/-- Claim C5 witness: three calls in minute 0; the expiry log holds exactly
one entry, set by the first call to the window width. -/
theorem rate_limiter_expiry_once_witness :
    (runChecks RATE_LIMIT WINDOW_SECONDS "u"
      (check_rate_limit RATE_LIMIT WINDOW_SECONDS rlInit "u" 5).1
      [10, 20]).1.ttlLog = [(("u", 0), WINDOW_SECONDS)] :=
  (rate_limiter_expiry_once RATE_LIMIT WINDOW_SECONDS "u" 0 5 [10, 20]
    (by decide) (by decide)).2.2.1

theorem runLookups_negative (id : Int) (e : Nat) :
    ∀ (ts : List Nat) (st : PenStore) (q : Nat),
      st id = some ("NULL", e) → (∀ t ∈ ts, t < e) →
      (runLookups id st q ts).1 = st ∧
      (runLookups id st q ts).2.1 = q ∧
      (∀ r ∈ (runLookups id st q ts).2.2, r = ⟨.negative_cache, none⟩) := by
  intro ts
  induction ts with
  | nil =>
      intro st q _ _
      exact ⟨rfl, rfl, by intro r hr; simp [runLookups] at hr⟩
  | cons t ts ih =>
      intro st q hst hts
      have ht : t < e := hts t (List.mem_cons_self t ts)
      have hcall : get_user_safe st q t id = (st, q, ⟨.negative_cache, none⟩) := by
        simp [get_user_safe, penGet, hst, ht]
      have htail := ih st q hst (fun x hx => hts x (List.mem_cons_of_mem t hx))
      refine ⟨?_, ?_, ?_⟩
      · show (runLookups id (get_user_safe st q t id).1 _ ts).1 = st
        rw [hcall]
        exact htail.1
      · show (runLookups id (get_user_safe st q t id).1 _ ts).2.1 = q
        rw [hcall]
        exact htail.2.1
      · intro r hr
        have : (runLookups id st q (t :: ts)).2.2 =
            (get_user_safe st q t id).2.2 ::
              (runLookups id (get_user_safe st q t id).1
                (get_user_safe st q t id).2.1 ts).2.2 := rfl
        rw [this, hcall] at hr
        rcases List.mem_cons.mp hr with h | h
        · exact h
        · exact htail.2.2 r h

theorem serializeUser_ne_NULL : ∀ j : Int, serializeUser j ≠ "NULL" := by
  intro j h
  have hlen := congrArg String.length h
  rw [serializeUser] at hlen
  simp only [String.length_append] at hlen
  have h1 : ("\x7b\"id\": " : String).length = 7 := by decide
  have h2 : ("NULL" : String).length = 4 := by decide
  omega

/-- Claim C6: for an id absent from the backing store, the first
`get_user_safe` lookup queries the database once and caches the `"NULL"`
marker — a value distinct from every valid serialized user — with TTL 60,
one fifth of the positive TTL 300; every later lookup of the same id
within that negative TTL is answered from the negative cache with no
database query, so the total query count stays 1. -/
theorem negative_caching_single_query (id : Int) (hid : validId id = false)
    (t0 : Nat) (ts : List Nat)
    (hts : ∀ t ∈ ts, t < t0 + NEGATIVE_TTL) :
    (get_user_safe (fun _ => none) 0 t0 id).2.1 = 1 ∧
    (get_user_safe (fun _ => none) 0 t0 id).2.2 = ⟨.database, none⟩ ∧
    (get_user_safe (fun _ => none) 0 t0 id).1 id =
      some ("NULL", t0 + NEGATIVE_TTL) ∧
    NEGATIVE_TTL * 5 = POSITIVE_TTL ∧
    (∀ j : Int, serializeUser j ≠ "NULL") ∧
    (runLookups id (get_user_safe (fun _ => none) 0 t0 id).1
      (get_user_safe (fun _ => none) 0 t0 id).2.1 ts).2.1 = 1 ∧
    (∀ r ∈ (runLookups id (get_user_safe (fun _ => none) 0 t0 id).1
      (get_user_safe (fun _ => none) 0 t0 id).2.1 ts).2.2,
      r = ⟨.negative_cache, none⟩) := by
  have hfirst : get_user_safe (fun _ => none) 0 t0 id =
      (fun x => if x = id then some ("NULL", t0 + NEGATIVE_TTL) else none,
       1, ⟨.database, none⟩) := by
    simp [get_user_safe, penGet, query_database, hid]
  have hstore : (get_user_safe (fun _ => none) 0 t0 id).1 id =
      some ("NULL", t0 + NEGATIVE_TTL) := by
    rw [hfirst]; simp
  have hrun := runLookups_negative id (t0 + NEGATIVE_TTL) ts
    (get_user_safe (fun _ => none) 0 t0 id).1
    (get_user_safe (fun _ => none) 0 t0 id).2.1 hstore hts
  refine ⟨by rw [hfirst], by rw [hfirst], hstore, by decide,
    serializeUser_ne_NULL, ?_, hrun.2.2⟩
  rw [hrun.2.1, hfirst]

/-- Claim C6 witness: id 999 does not exist; one miss at time 0 followed by
nine repeat lookups within the 60-second negative TTL leaves the database
query count at exactly 1. -/
theorem negative_caching_single_query_witness :
    (runLookups 999 (get_user_safe (fun _ => none) 0 0 999).1
      (get_user_safe (fun _ => none) 0 0 999).2.1
      [1, 2, 3, 4, 5, 6, 7, 8, 9]).2.1 = 1 :=
  (negative_caching_single_query 999 (by decide) 0
    [1, 2, 3, 4, 5, 6, 7, 8, 9] (by decide)).2.2.2.2.2.1

theorem pollWait_some_charact (env : Nat → Option String) :
    ∀ (n i : Nat) (v : String) (j : Nat),
      pollWait env n i = some (v, j) →
      i ≤ j ∧ j < i + n ∧ env j = some v ∧
        (∀ k, i ≤ k → k < j → env k = none) := by
  intro n
  induction n with
  | zero => intro i v j h; simp [pollWait] at h
  | succ n ih =>
      intro i v j h
      rw [pollWait] at h
      match henv : env i with
      | some w =>
          rw [henv] at h
          have hv : w = v ∧ i = j := by
            have := Option.some.injEq (w, i) (v, j) ▸ h
            exact ⟨congrArg Prod.fst (Option.some.inj h),
              congrArg Prod.snd (Option.some.inj h)⟩
          obtain ⟨rfl, rfl⟩ := hv
          exact ⟨le_refl _, by omega, henv, fun k hk1 hk2 => absurd hk1 (by omega)⟩
      | none =>
          rw [henv] at h
          obtain ⟨h1, h2, h3, h4⟩ := ih (i + 1) v j h
          refine ⟨by omega, by omega, h3, ?_⟩
          intro k hk1 hk2
          by_cases hki : k = i
          · subst hki; exact henv
          · exact h4 k (by omega) hk2

theorem pollWait_none_of_empty (env : Nat → Option String) :
    ∀ (n i : Nat), (∀ k, i ≤ k → k < i + n → env k = none) →
      pollWait env n i = none := by
  intro n
  induction n with
  | zero => intro i _; rfl
  | succ n ih =>
      intro i h
      rw [pollWait, h i (le_refl _) (by omega)]
      exact ih (i + 1) (fun k hk1 hk2 => h k (by omega) (by omega))

/-- Claim C7: a `get_product_safe` caller that loses the lock polls the
cache at most 30 times: if some poll `j ≤ 30` is the first to see the
winner's value it returns that cached value immediately, and if all 30
polls miss it falls back to a direct database fetch and returns that
result — the wait is bounded by construction, never an unbounded retry. -/
theorem single_flight_loser_bounded_wait (env : Nat → Option String)
    (dbVal : String) :
    (∀ (v : String) (j : Nat), pollWait env 30 1 = some (v, j) →
      1 ≤ j ∧ j ≤ 30 ∧ env j = some v ∧
      (∀ k, 1 ≤ k → k < j → env k = none) ∧
      (get_product_safe none false env dbVal).1 = .fromCache v) ∧
    ((∀ k, 1 ≤ k → k ≤ 30 → env k = none) →
      (get_product_safe none false env dbVal).1 = .fromDb dbVal) := by
  constructor
  · intro v j h
    obtain ⟨h1, h2, h3, h4⟩ := pollWait_some_charact env 30 1 v j h
    refine ⟨h1, by omega, h3, h4, ?_⟩
    simp [get_product_safe, h]
  · intro hall
    have hnone : pollWait env 30 1 = none :=
      pollWait_none_of_empty env 30 1 (fun k hk1 hk2 => hall k hk1 (by omega))
    simp [get_product_safe, hnone]

/-- Claim C7 witness: the winner populates the cache at poll 3; the loser
returns that value from the cache. -/
theorem single_flight_loser_bounded_wait_witness :
    (get_product_safe none false
      (fun i => if i = 3 then some "vv" else none) "D").1 = .fromCache "vv" :=
  ((single_flight_loser_bounded_wait
      (fun i => if i = 3 then some "vv" else none) "D").1
    "vv" 3 (by decide)).2.2.2.2

/-- Claim C10: a loser whose 30 polls all miss takes the timeout fallback:
it returns the directly fetched data, and its trace after the poll loop
performs only the database query — no cache write and no lock-key
modification — so replaying its whole trace over any coordination-store
state leaves that state exactly as it was. -/
theorem single_flight_fallback_frame (env : Nat → Option String)
    (dbVal : String)
    (henv : ∀ k, 1 ≤ k → k ≤ 30 → env k = none) :
    (get_product_safe none false env dbVal).1 = .fromDb dbVal ∧
    (get_product_safe none false env dbVal).2 =
      [.cacheRead, .lockTry false, .dbQuery] ∧
    (∀ s : HerdStore, applyTrace s (get_product_safe none false env dbVal).2
      = s) := by
  have hnone : pollWait env 30 1 = none :=
    pollWait_none_of_empty env 30 1 (fun k hk1 hk2 => henv k hk1 (by omega))
  refine ⟨?_, ?_, ?_⟩
  · simp [get_product_safe, hnone]
  · simp [get_product_safe, hnone]
  · intro s
    simp [get_product_safe, hnone, applyTrace, applyEff]

/-- Claim C10 witness: with no winner ever populating the cache, the
fallback run leaves a concrete coordination store untouched. -/
theorem single_flight_fallback_frame_witness :
    applyTrace ⟨none, true⟩
      (get_product_safe none false (fun _ => none) "D").2 = ⟨none, true⟩ :=
  (single_flight_fallback_frame (fun _ => none) "D"
    (fun _ _ _ => rfl)).2.2 ⟨none, true⟩

theorem stepRound_replicate (F v : Nat) (s : Sys) (c c' : CState)
    (h : stepCaller F v s c = (s, c')) :
    ∀ m, stepRound F v s (List.replicate m c) = (s, List.replicate m c') := by
  intro m
  induction m with
  | zero => rfl
  | succ m ih =>
      rw [List.replicate_succ, List.replicate_succ]
      show (_, (stepCaller F v s c).2 ::
        (stepRound F v (stepCaller F v s c).1 (List.replicate m c)).2) = _
      rw [h]
      show ((stepRound F v s (List.replicate m c)).1,
        c' :: (stepRound F v s (List.replicate m c)).2) = _
      rw [ih]

theorem runRounds_add (F v : Nat) :
    ∀ (a b : Nat) (sc : Sys × List CState),
      runRounds F v (a + b) sc = runRounds F v b (runRounds F v a sc) := by
  intro a
  induction a with
  | zero => intro b sc; rw [Nat.zero_add]; rfl
  | succ a ih =>
      intro b sc
      rw [Nat.succ_add]
      show runRounds F v (a + b) (stepRound F v sc.1 sc.2) = _
      rw [ih b (stepRound F v sc.1 sc.2)]
      rfl

theorem herd_round_zero (F v m : Nat) :
    stepRound F v initSys (List.replicate (m + 2) .start) =
      (⟨true, none, 1⟩, .fetching F :: List.replicate (m + 1) (.polling 30)) := by
  have h1 : stepCaller F v initSys .start = (⟨true, none, 1⟩, .fetching F) := by
    rfl
  have h2 : stepCaller F v ⟨true, none, 1⟩ .start =
      (⟨true, none, 1⟩, .polling 30) := rfl
  rw [List.replicate_succ]
  show (_, (stepCaller F v initSys .start).2 ::
    (stepRound F v (stepCaller F v initSys .start).1
      (List.replicate (m + 1) .start)).2) = _
  rw [h1]
  show ((stepRound F v ⟨true, none, 1⟩ (List.replicate (m + 1) .start)).1,
    CState.fetching F ::
      (stepRound F v ⟨true, none, 1⟩ (List.replicate (m + 1) .start)).2) = _
  rw [stepRound_replicate F v ⟨true, none, 1⟩ .start (.polling 30) h2 (m + 1)]

theorem herd_rounds_mid (F v m : Nat) :
    ∀ (k a p : Nat),
      runRounds F v k
        (⟨true, none, 1⟩,
          .fetching (a + k) :: List.replicate m (.polling (p + k))) =
      (⟨true, none, 1⟩, .fetching a :: List.replicate m (.polling p)) := by
  intro k
  induction k with
  | zero => intro a p; rfl
  | succ k ih =>
      intro a p
      have hpoll : stepCaller F v ⟨true, none, 1⟩ (.polling (p + k + 1)) =
          (⟨true, none, 1⟩, .polling (p + k)) := rfl
      have hround : stepRound F v ⟨true, none, 1⟩
          (.fetching (a + (k + 1)) :: List.replicate m (.polling (p + (k + 1))))
          = (⟨true, none, 1⟩,
             .fetching (a + k) :: List.replicate m (.polling (p + k))) := by
        rw [Nat.add_succ a k, Nat.add_succ p k]
        show (_, (stepCaller F v ⟨true, none, 1⟩ (.fetching (a + k + 1))).2 ::
          (stepRound F v
            (stepCaller F v ⟨true, none, 1⟩ (.fetching (a + k + 1))).1
            (List.replicate m (.polling (p + k + 1)))).2) = _
        show ((stepRound F v ⟨true, none, 1⟩
            (List.replicate m (.polling (p + k + 1)))).1,
          CState.fetching (a + k) :: (stepRound F v ⟨true, none, 1⟩
            (List.replicate m (.polling (p + k + 1)))).2) = _
        rw [stepRound_replicate F v ⟨true, none, 1⟩ (.polling (p + k + 1))
          (.polling (p + k)) hpoll m]
      show runRounds F v k (stepRound F v _ _) = _
      rw [hround]
      exact ih a p

theorem herd_final_round (F v m p : Nat) :
    stepRound F v ⟨true, none, 1⟩
      (.fetching 0 :: List.replicate m (.polling (p + 1))) =
    (⟨false, some v, 1⟩, .doneDb v :: List.replicate m (.doneCache v)) := by
  have hdone : stepCaller F v ⟨false, some v, 1⟩ (.polling (p + 1)) =
      (⟨false, some v, 1⟩, .doneCache v) := rfl
  show (_, (stepCaller F v ⟨true, none, 1⟩ (.fetching 0)).2 ::
    (stepRound F v (stepCaller F v ⟨true, none, 1⟩ (.fetching 0)).1
      (List.replicate m (.polling (p + 1)))).2) = _
  show ((stepRound F v ⟨false, some v, 1⟩
      (List.replicate m (.polling (p + 1)))).1,
    CState.doneDb v :: (stepRound F v ⟨false, some v, 1⟩
      (List.replicate m (.polling (p + 1)))).2) = _
  rw [stepRound_replicate F v ⟨false, some v, 1⟩ (.polling (p + 1))
    (.doneCache v) hdone m]

/-- Claim C2: `N` concurrent cache-miss callers (`2 ≤ N ≤ 100`, all
entering `get_product_safe` on a cold cache) cause exactly one database
fetch when the database answers within the losers' 30-poll wait bound
(`F ≤ 29` ticks of 100 ms): after the run, the shared fetch counter is 1,
exactly one caller won the `SET NX` lock and returned the database result,
and every other caller returned the winner's value from the cache. -/
theorem thundering_herd_single_fetch (N F v : Nat)
    (hN1 : 2 ≤ N) (hN2 : N ≤ 100) (hF1 : 1 ≤ F) (hF2 : F ≤ 29) :
    (runRounds F v (F + 2) (initConf N)).1.fetches = 1 ∧
    (runRounds F v (F + 2) (initConf N)).2 =
      .doneDb v :: List.replicate (N - 1) (.doneCache v) := by
  obtain ⟨m, rfl⟩ : ∃ m, N = m + 2 := ⟨N - 2, by omega⟩
  obtain ⟨p, hp⟩ : ∃ p, 29 = p + F := ⟨29 - F, by omega⟩
  have h30 : 30 = (p + 1) + F := by omega
  have hchain : runRounds F v (F + 2) (initConf (m + 2)) =
      (⟨false, some v, 1⟩,
       .doneDb v :: List.replicate (m + 1) (.doneCache v)) := by
    have e1 : F + 2 = 1 + (F + 1) := by omega
    rw [e1, runRounds_add F v 1 (F + 1) (initConf (m + 2))]
    have r0 : runRounds F v 1 (initConf (m + 2)) =
        (⟨true, none, 1⟩,
         .fetching F :: List.replicate (m + 1) (.polling 30)) := by
      show runRounds F v 0 (stepRound F v initSys (List.replicate (m + 2) .start)) = _
      rw [herd_round_zero F v m]
      rfl
    rw [r0]
    have e2 : F + 1 = F + 1 := rfl
    rw [show (F + 1 : Nat) = F + 1 from rfl,
      runRounds_add F v F 1
        (⟨true, none, 1⟩, .fetching F :: List.replicate (m + 1) (.polling 30))]
    have rmid : runRounds F v F
        (⟨true, none, 1⟩,
         .fetching F :: List.replicate (m + 1) (.polling 30)) =
        (⟨true, none, 1⟩,
         .fetching 0 :: List.replicate (m + 1) (.polling (p + 1))) := by
      have hF : F = 0 + F := by omega
      rw [show (CState.fetching F) = CState.fetching (0 + F) by rw [Nat.zero_add],
        show (CState.polling 30) = CState.polling ((p + 1) + F) by rw [h30]]
      exact herd_rounds_mid F v (m + 1) F 0 (p + 1)
    rw [rmid]
    show runRounds F v 0 (stepRound F v ⟨true, none, 1⟩
      (.fetching 0 :: List.replicate (m + 1) (.polling (p + 1)))) = _
    rw [herd_final_round F v (m + 1) p]
    rfl
  rw [hchain]
  exact ⟨rfl, by simp⟩

/-- Claim C2 witness: 5 concurrent callers, a 2-second database query
(20 ticks): exactly one database fetch. -/
theorem thundering_herd_single_fetch_witness :
    (runRounds 20 7 22 (initConf 5)).1.fetches = 1 :=
  (thundering_herd_single_fetch 5 20 7 (by decide) (by decide) (by decide)
    (by decide)).1

end CachingStrategies
